import Mathlib

/-
Verification development for the consul-ipam repository (Go).

The embedding models the persistence layer (internal/infrastructure/persistence),
which contains all the logic the claims are about: CreateNetwork, AllocateIP
(explicit-address branch and first-available loop), ReleaseIP, GetIP,
UpdateIPHostname and the nextIP helper.  The database is modelled as an
explicit in-memory state (`Store`); SQL `QueryRow` over a `WHERE` clause is
modelled with `List.find?` of the corresponding predicate, `INSERT ...
RETURNING id` appends a row numbered by a store counter (SERIAL), and
transactions are modelled by returning the pre-call state on every error path
(the Go code does `defer tx.Rollback()` and commits only at the end).
The backing database itself is assumed reliable: spontaneous connection /
storage failures (`StorageError`) are outside the model.
-/

set_option autoImplicit false

/-- An IPv4 address as its four big-endian octets, mirroring the 4-byte
`net.IP` slices that `net.ParseCIDR` and the allocation loop manipulate. -/
abbrev Ip := List Nat

/-- Little-endian value of a byte list (head is the least significant byte). -/
def leNat : List Nat → Nat
  | [] => 0
  | b :: t => b + 256 * leNat t

/-- Numeric value of an address, interpreting the octets big-endian. -/
def ipToNat (ip : Ip) : Nat := leNat ip.reverse

/-- The four big-endian octets of `n % 2^32`. -/
def natToIp (n : Nat) : Ip :=
  [n / 16777216 % 256, n / 65536 % 256, n / 256 % 256, n % 256]

/-- A well-formed IPv4 value: four octets, each a byte. -/
def ipValid (ip : Ip) : Prop := ip.length = 4 ∧ ∀ b ∈ ip, b < 256

instance (ip : Ip) : Decidable (ipValid ip) := by
  unfold ipValid; infer_instance

/-- Byte-wise increment with carry, starting at the head (least significant
byte first).  This is the body of the Go loop in `nextIP`, which walks the
slice from its last byte towards the first: `next[j]++; if next[j] > 0 break`
on a byte wraps to 0 and carries exactly when the byte was 255. -/
def carryInc : List Nat → List Nat
  | [] => []
  | b :: t =>
    let b2 := (b + 1) % 256
    if 0 < b2 then b2 :: t else b2 :: carryInc t

/-- Embeds `nextIP` from the repository: copy the address and increment it
from the last octet backwards with carry. -/
def nextIP (ip : Ip) : Ip := (carryInc ip.reverse).reverse

/-- A CIDR block as produced by `net.ParseCIDR`: `base` is the masked base
address of the block (`ipNet.IP`) and `prefixLen` the prefix length. -/
structure Cidr where
  base : Ip
  prefixLen : Nat
deriving DecidableEq, Repr

/-- Embeds `ipNet.Contains`: the address agrees with the block's base on the
top `prefixLen` bits, i.e. both have the same quotient by `2^(32-prefixLen)`
(masking the low host bits and comparing). -/
def cidrContains (c : Cidr) (ip : Ip) : Bool :=
  ipToNat ip / 2 ^ (32 - c.prefixLen) == ipToNat c.base / 2 ^ (32 - c.prefixLen)

/-- A row of the `networks` table (`domain.Network`). -/
structure Network where
  id : Nat
  cidr : Cidr
  gateway : Ip
deriving DecidableEq, Repr

/-- A row of the `ip_addresses` table (`domain.IPAddress`); `hostname` is the
nullable `hostname` column, so it is an `Option`. -/
structure IpRow where
  id : Nat
  networkId : Nat
  address : Ip
  hostname : Option String
  status : String
deriving DecidableEq, Repr

/-- The database state: the two tables plus the SERIAL id counters. -/
structure Store where
  networks : List Network
  rows : List IpRow
  nextRowId : Nat
  nextNetworkId : Nat
deriving DecidableEq, Repr

/-- The error outcomes the repository functions can produce (each constructor
corresponds to one `fmt.Errorf` site in the Go code). -/
inductive IpamError where
  | hostnameInUse (h : String)
  | networkNotFound
  | cannotAllocateGateway
  | alreadyAllocated
  | noAvailableAddresses
  | parseAllocatedAddress
  | ipNotFound
  | nullHostnameScan
deriving DecidableEq, Repr

deriving instance DecidableEq for Except

/-- Embeds `CreateNetwork`: a bare `INSERT INTO networks ... RETURNING id`.
No validation of any kind is performed before the insert. -/
def createNetwork (s : Store) (cidr : Cidr) (gateway : Ip) : Nat × Store :=
  (s.nextNetworkId,
   { s with
       networks := s.networks ++ [⟨s.nextNetworkId, cidr, gateway⟩],
       nextNetworkId := s.nextNetworkId + 1 })

/-- Outcome of the first-available `for` loop in `AllocateIP`, tracking the
value of Go's `err` variable when the loop ends: a successful conditional
insert (`break` with `err == nil` and a row), exit with `err == sql.ErrNoRows`
(the last conditional insert found the candidate taken), or exit with `err`
still `nil` because no insert was ever attempted (every candidate was the
gateway, or the loop body never ran). -/
inductive LoopOutcome where
  | inserted (row : IpRow) (s : Store)
  | noRows
  | nothingAttempted
  | fuelExhausted
deriving DecidableEq, Repr

/-- Embeds the first-available loop of `AllocateIP`:
`for ip := nextIP(ipNet.IP); ipNet.Contains(ip); ip = nextIP(ip)` with a
`continue` on the gateway and a conditional insert
(`INSERT ... WHERE NOT EXISTS (SELECT 1 ... WHERE network_id AND address)`)
on every other candidate.  `att` records whether some insert has been
attempted and rejected (Go's `err == sql.ErrNoRows` at loop exit).  The
recursion is bounded by `fuel`; `allocateIP` supplies more fuel than the
block has addresses, so `fuelExhausted` is reachable only where the Go loop
itself would not terminate (a fully occupied `/0`). -/
def allocLoop (s : Store) (networkId : Nat) (gateway : Ip) (hostname : String)
    (c : Cidr) : Nat → Ip → Bool → LoopOutcome
  | 0, _, _ => .fuelExhausted
  | fuel + 1, ip, att =>
    if cidrContains c ip then
      if ip == gateway then
        allocLoop s networkId gateway hostname c fuel (nextIP ip) att
      else
        match s.rows.find? (fun r => r.networkId == networkId && r.address == ip) with
        | some _ => allocLoop s networkId gateway hostname c fuel (nextIP ip) true
        | none =>
          let row : IpRow := ⟨s.nextRowId, networkId, ip, some hostname, "allocated"⟩
          .inserted row
            { s with rows := s.rows ++ [row], nextRowId := s.nextRowId + 1 }
    else
      if att then .noRows else .nothingAttempted

/-- Embeds `AllocateIP`.  The result is returned together with the post-call
store: every error path returns the original store (the deferred rollback),
the success path returns the committed store.  Step order follows the source:
hostname-uniqueness check, network lookup, then either the explicit-address
branch (gateway check, row lookup with `FOR UPDATE`, insert) or the
first-available loop.  The `nothingAttempted` loop outcome reproduces the
source path where the loop ends with `err == nil` and an empty `addressStr`:
the transaction commits (changing nothing) and `net.ParseIP("")` then fails. -/
def allocateIP (s : Store) (networkId : Nat) (requestedIP : Option Ip)
    (hostname : String) : Except IpamError IpRow × Store :=
  match s.rows.find? (fun r => r.networkId == networkId && r.hostname == some hostname) with
  | some _ => (.error (.hostnameInUse hostname), s)
  | none =>
    match s.networks.find? (fun n => n.id == networkId) with
    | none => (.error .networkNotFound, s)
    | some nw =>
      match requestedIP with
      | some rip =>
        if rip == nw.gateway then (.error .cannotAllocateGateway, s)
        else
          match s.rows.find? (fun r => r.networkId == networkId && r.address == rip) with
          | some _ => (.error .alreadyAllocated, s)
          | none =>
            let row : IpRow := ⟨s.nextRowId, networkId, rip, some hostname, "allocated"⟩
            (.ok row,
             { s with rows := s.rows ++ [row], nextRowId := s.nextRowId + 1 })
      | none =>
        match allocLoop s networkId nw.gateway hostname nw.cidr
            (2 ^ (32 - nw.cidr.prefixLen) + 1) (nextIP nw.cidr.base) false with
        | .inserted row s2 => (.ok row, s2)
        | .noRows => (.error .noAvailableAddresses, s)
        | .nothingAttempted => (.error .parseAllocatedAddress, s)
        | .fuelExhausted => (.error .noAvailableAddresses, s)

/-- Embeds `ReleaseIP`: `UPDATE ip_addresses SET status = 'available',
hostname = NULL WHERE id = $1`, failing when no row was affected. -/
def releaseIP (s : Store) (id : Nat) : Except IpamError Store :=
  if s.rows.any (fun r => r.id == id) then
    .ok { s with
            rows := s.rows.map (fun r =>
              if r.id == id then { r with status := "available", hostname := none } else r) }
  else .error .ipNotFound

/-- Embeds `GetIP`: `SELECT ... WHERE id = $1` scanning the nullable
`hostname` column into a Go `string`.  `sql.ErrNoRows` is returned as
`(nil, nil)` (modelled `ok none`); a row whose hostname is NULL makes
`Scan` fail (`converting NULL to string`), which the function surfaces as
an error. -/
def getIP (s : Store) (id : Nat) : Except IpamError (Option IpRow) :=
  match s.rows.find? (fun r => r.id == id) with
  | none => .ok none
  | some r =>
    match r.hostname with
    | none => .error .nullHostnameScan
    | some _ => .ok (some r)

/-- Embeds `UpdateIPHostname`: look up the record's network, check that no
other row of that network holds the new hostname, then update the row.
All in one transaction; errors return the pre-call store. -/
def updateIPHostname (s : Store) (id : Nat) (hostname : String) :
    Except IpamError Store :=
  match s.rows.find? (fun r => r.id == id) with
  | none => .error .ipNotFound
  | some row0 =>
    match s.rows.find? (fun r =>
        r.networkId == row0.networkId && r.hostname == some hostname && r.id != id) with
    | some _ => .error (.hostnameInUse hostname)
    | none =>
      .ok { s with
              rows := s.rows.map (fun r =>
                if r.id == id then { r with hostname := some hostname } else r) }

/-! ### Arithmetic facts about the byte-level address representation -/

theorem leNat_lt_pow (l : List Nat) (h : ∀ b ∈ l, b < 256) :
    leNat l < 256 ^ l.length := by
  induction l with
  | nil => simp [leNat]
  | cons b t ih =>
    have hb : b < 256 := h b (List.mem_cons_self ..)
    have ht := ih (fun x hx => h x (List.mem_cons_of_mem _ hx))
    have h2 : 256 * (leNat t + 1) ≤ 256 * 256 ^ t.length :=
      Nat.mul_le_mul_left _ ht
    calc b + 256 * leNat t < 256 * (leNat t + 1) := by omega
    _ ≤ 256 * 256 ^ t.length := h2
    _ = 256 ^ (t.length + 1) := (pow_succ' 256 t.length).symm

theorem carryInc_length (l : List Nat) : (carryInc l).length = l.length := by
  induction l with
  | nil => rfl
  | cons b t ih =>
    simp only [carryInc]
    split
    · simp
    · simp [ih]

theorem carryInc_bytes (l : List Nat) (h : ∀ b ∈ l, b < 256) :
    ∀ b ∈ carryInc l, b < 256 := by
  induction l with
  | nil => simp [carryInc]
  | cons b t ih =>
    simp only [carryInc]
    split
    · intro x hx
      rcases List.mem_cons.mp hx with rfl | hx
      · exact Nat.mod_lt _ (by omega)
      · exact h x (List.mem_cons_of_mem _ hx)
    · intro x hx
      rcases List.mem_cons.mp hx with rfl | hx
      · exact Nat.mod_lt _ (by omega)
      · exact ih (fun y hy => h y (List.mem_cons_of_mem _ hy)) x hx

theorem leNat_carryInc (l : List Nat) (h : ∀ b ∈ l, b < 256) :
    leNat (carryInc l) = (leNat l + 1) % 256 ^ l.length := by
  induction l with
  | nil => simp [carryInc, leNat]
  | cons b t ih =>
    have hb : b < 256 := h b (List.mem_cons_self ..)
    have ht : leNat t < 256 ^ t.length :=
      leNat_lt_pow t (fun x hx => h x (List.mem_cons_of_mem _ hx))
    have iht := ih (fun x hx => h x (List.mem_cons_of_mem _ hx))
    simp only [carryInc, List.length_cons]
    split
    case isTrue hpos =>
      have hb255 : b < 255 := by
        rcases Nat.lt_or_ge b 255 with hlt | hge
        · exact hlt
        · have hbe : b = 255 := by omega
          rw [hbe] at hpos
          simp at hpos
      have hmod : (b + 1) % 256 = b + 1 := Nat.mod_eq_of_lt (by omega)
      have hlt2 : b + 256 * leNat t + 1 < 256 ^ (t.length + 1) := by
        have h2 : 256 * (leNat t + 1) ≤ 256 * 256 ^ t.length :=
          Nat.mul_le_mul_left _ ht
        calc b + 256 * leNat t + 1 < 256 * (leNat t + 1) := by omega
        _ ≤ 256 * 256 ^ t.length := h2
        _ = 256 ^ (t.length + 1) := (pow_succ' 256 t.length).symm
      simp only [leNat, hmod]
      rw [Nat.mod_eq_of_lt hlt2]
      omega
    case isFalse hpos =>
      have hb255 : b = 255 := by
        rcases Nat.lt_or_ge b 255 with hlt | hge
        · have : (b + 1) % 256 = b + 1 := Nat.mod_eq_of_lt (by omega)
          omega
        · omega
      subst hb255
      simp only [leNat, iht]
      have h256 : (255 + 1) % 256 = 0 := by norm_num
      rw [h256]
      have : (255 + 256 * leNat t + 1) = 256 * (leNat t + 1) := by omega
      rw [this, pow_succ', Nat.mul_mod_mul_left]
      omega

theorem ipToNat_lt_two_pow {ip : Ip} (h : ipValid ip) : ipToNat ip < 2 ^ 32 := by
  obtain ⟨hlen, hb⟩ := h
  have := leNat_lt_pow ip.reverse (fun x hx => hb x (List.mem_reverse.mp hx))
  rw [List.length_reverse, hlen] at this
  have h4 : (256 : Nat) ^ 4 = 2 ^ 32 := by norm_num
  rw [h4] at this
  exact this

theorem ipValid_nextIP {ip : Ip} (h : ipValid ip) : ipValid (nextIP ip) := by
  obtain ⟨hlen, hb⟩ := h
  refine ⟨?_, ?_⟩
  · simp [nextIP, carryInc_length, hlen]
  · intro b hbm
    rw [nextIP, List.mem_reverse] at hbm
    exact carryInc_bytes ip.reverse
      (fun x hx => hb x (List.mem_reverse.mp hx)) b hbm

theorem ipToNat_nextIP {ip : Ip} (h : ipValid ip) :
    ipToNat (nextIP ip) = (ipToNat ip + 1) % 2 ^ 32 := by
  obtain ⟨hlen, hb⟩ := h
  have h1 : ipToNat (nextIP ip) = leNat (carryInc ip.reverse) := by
    simp [ipToNat, nextIP]
  rw [h1, leNat_carryInc ip.reverse (fun x hx => hb x (List.mem_reverse.mp hx))]
  rw [List.length_reverse, hlen]
  have h4 : (256 : Nat) ^ 4 = 2 ^ 32 := by norm_num
  rw [h4, ipToNat]

theorem natToIp_ipToNat {ip : Ip} (h : ipValid ip) : natToIp (ipToNat ip) = ip := by
  obtain ⟨hlen, hb⟩ := h
  obtain ⟨a, b, c, d, rfl⟩ : ∃ a b c d, ip = [a, b, c, d] := by
    match ip, hlen with
    | [a, b, c, d], _ => exact ⟨a, b, c, d, rfl⟩
  have ha : a < 256 := hb a (by simp)
  have hbb : b < 256 := hb b (by simp)
  have hc : c < 256 := hb c (by simp)
  have hd : d < 256 := hb d (by simp)
  have hval : ipToNat [a, b, c, d] = d + 256 * (c + 256 * (b + 256 * a)) := by
    simp [ipToNat, leNat]
    try ring
  rw [natToIp, hval]
  refine List.ext_getElem (by simp) ?_
  intro i h1 h2
  match i, h2 with
  | 0, _ => simp <;> omega
  | 1, _ => simp <;> omega
  | 2, _ => simp <;> omega
  | 3, _ => simp <;> omega

/-! ### Properties of the first-available allocation loop -/

theorem allocLoop_ne_inserted (s : Store) (nid : Nat) (gw : Ip) (hn : String)
    (c : Cidr) {ip : Ip} (hc : cidrContains c ip = false) (fuel : Nat)
    (att : Bool) (row : IpRow) (s2 : Store) :
    allocLoop s nid gw hn c fuel ip att ≠ .inserted row s2 := by
  cases fuel with
  | zero => simp [allocLoop]
  | succ n => cases att <;> simp [allocLoop, hc]

theorem allocLoop_inserted_basic (s : Store) (nid : Nat) (gw : Ip) (hn : String)
    (c : Cidr) :
    ∀ fuel ip att row s2, allocLoop s nid gw hn c fuel ip att = .inserted row s2 →
      cidrContains c row.address = true ∧
      row.address ≠ gw ∧
      row.networkId = nid ∧ row.hostname = some hn ∧ row.status = "allocated" ∧
      row.id = s.nextRowId ∧
      (∀ r ∈ s.rows, ¬(r.networkId = nid ∧ r.address = row.address)) ∧
      s2 = { s with rows := s.rows ++ [row], nextRowId := s.nextRowId + 1 } := by
  intro fuel
  induction fuel with
  | zero => intro ip att row s2 hloop; simp [allocLoop] at hloop
  | succ n ih =>
    intro ip att row s2 hloop
    simp only [allocLoop] at hloop
    split at hloop
    case isTrue hcont =>
      split at hloop
      case isTrue hgw => exact ih _ _ _ _ hloop
      case isFalse hgw =>
        split at hloop
        next r hfind => exact ih _ _ _ _ hloop
        next hfind =>
          injection hloop with h1 h2
          subst h1
          subst h2
          refine ⟨hcont, ?_, rfl, rfl, rfl, rfl, ?_, rfl⟩
          · intro he
            exact hgw (by simp [show ip = gw from he])
          · intro r hr hcontra
            have hne := List.find?_eq_none.mp hfind r hr
            simp [hcontra.1, hcontra.2] at hne
    case isFalse hcont =>
      cases att <;> simp at hloop

theorem cidrContains_false_of_wrap (c : Cidr) (ip2 : Ip) (hp1 : 1 ≤ c.prefixLen)
    (hbq : ipToNat c.base / 2 ^ (32 - c.prefixLen) =
      (2 ^ 32 - 1) / 2 ^ (32 - c.prefixLen))
    (hz : ipToNat ip2 = 0) : cidrContains c ip2 = false := by
  rw [cidrContains, hz, hbq, Nat.zero_div, beq_eq_false_iff_ne]
  have hm : 32 - c.prefixLen ≤ 31 := by omega
  have hpow : 2 ^ (32 - c.prefixLen) ≤ 2 ^ 31 :=
    Nat.pow_le_pow_right (by norm_num) hm
  have hdpos : 0 < 2 ^ (32 - c.prefixLen) := Nat.pos_pow_of_pos _ (by norm_num)
  have h1 : 1 ≤ (2 ^ 32 - 1) / 2 ^ (32 - c.prefixLen) := by
    rw [Nat.one_le_div_iff hdpos]
    have h31 : (2 : Nat) ^ 31 ≤ 2 ^ 32 - 1 := by norm_num
    omega
  omega

theorem allocLoop_inserted_min (s : Store) (nid : Nat) (gw : Ip) (hn : String)
    (c : Cidr) (hp1 : 1 ≤ c.prefixLen) :
    ∀ fuel ip att row s2,
      ipValid ip →
      ipToNat c.base < ipToNat ip →
      (∀ m, ipToNat c.base < m → m < ipToNat ip →
        natToIp m = gw ∨ ∃ r ∈ s.rows, r.networkId = nid ∧ r.address = natToIp m) →
      allocLoop s nid gw hn c fuel ip att = .inserted row s2 →
      ipValid row.address ∧
      ipToNat c.base < ipToNat row.address ∧
      (∀ m, ipToNat c.base < m → m < ipToNat row.address →
        natToIp m = gw ∨ ∃ r ∈ s.rows, r.networkId = nid ∧ r.address = natToIp m) := by
  intro fuel
  induction fuel with
  | zero => intro ip att row s2 _ _ _ hloop; simp [allocLoop] at hloop
  | succ n ih =>
    intro ip att row s2 hv hgt hinv hloop
    simp only [allocLoop] at hloop
    split at hloop
    case isTrue hcont =>
      have hv' : ipValid (nextIP ip) := ipValid_nextIP hv
      have hlt : ipToNat ip < 2 ^ 32 := ipToNat_lt_two_pow hv
      have hnext : ipToNat (nextIP ip) = (ipToNat ip + 1) % 2 ^ 32 :=
        ipToNat_nextIP hv
      split at hloop
      case isTrue hgw =>
        rcases Nat.lt_or_ge (ipToNat ip + 1) (2 ^ 32) with hw | hw
        · have hn2 : ipToNat (nextIP ip) = ipToNat ip + 1 := by
            rw [hnext, Nat.mod_eq_of_lt hw]
          refine ih (nextIP ip) att row s2 hv' ?_ ?_ hloop
          · omega
          · intro m h1 h2
            rw [hn2] at h2
            rcases Nat.lt_or_ge m (ipToNat ip) with h3 | h3
            · exact hinv m h1 h3
            · have hm : m = ipToNat ip := by omega
              subst hm
              left
              rw [natToIp_ipToNat hv]
              exact (eq_of_beq hgw).symm ▸ rfl
        · have h32 : ipToNat ip = 2 ^ 32 - 1 := by omega
          have hz : ipToNat (nextIP ip) = 0 := by
            rw [hnext, h32]
            norm_num
          have hq : ipToNat ip / 2 ^ (32 - c.prefixLen) =
              ipToNat c.base / 2 ^ (32 - c.prefixLen) := eq_of_beq hcont
          have hbq : ipToNat c.base / 2 ^ (32 - c.prefixLen) =
              (2 ^ 32 - 1) / 2 ^ (32 - c.prefixLen) := by
            rw [← hq, h32]
          exact absurd hloop
            (allocLoop_ne_inserted s nid gw hn c
              (cidrContains_false_of_wrap c (nextIP ip) hp1 hbq hz) n att row s2)
      case isFalse hgw =>
        split at hloop
        next r hfind =>
          have hpred := List.find?_some hfind
          have hmem := List.mem_of_find?_eq_some hfind
          simp only [Bool.and_eq_true, beq_iff_eq] at hpred
          rcases Nat.lt_or_ge (ipToNat ip + 1) (2 ^ 32) with hw | hw
          · have hn2 : ipToNat (nextIP ip) = ipToNat ip + 1 := by
              rw [hnext, Nat.mod_eq_of_lt hw]
            refine ih (nextIP ip) true row s2 hv' ?_ ?_ hloop
            · omega
            · intro m h1 h2
              rw [hn2] at h2
              rcases Nat.lt_or_ge m (ipToNat ip) with h3 | h3
              · exact hinv m h1 h3
              · have hm : m = ipToNat ip := by omega
                subst hm
                right
                exact ⟨r, hmem, hpred.1, by rw [natToIp_ipToNat hv]; exact hpred.2⟩
          · have h32 : ipToNat ip = 2 ^ 32 - 1 := by omega
            have hz : ipToNat (nextIP ip) = 0 := by
              rw [hnext, h32]
              norm_num
            have hq : ipToNat ip / 2 ^ (32 - c.prefixLen) =
                ipToNat c.base / 2 ^ (32 - c.prefixLen) := eq_of_beq hcont
            have hbq : ipToNat c.base / 2 ^ (32 - c.prefixLen) =
                (2 ^ 32 - 1) / 2 ^ (32 - c.prefixLen) := by
              rw [← hq, h32]
            exact absurd hloop
              (allocLoop_ne_inserted s nid gw hn c
                (cidrContains_false_of_wrap c (nextIP ip) hp1 hbq hz) n true row s2)
        next hfind =>
          injection hloop with h1 h2
          subst h1
          subst h2
          exact ⟨hv, hgt, hinv⟩
    case isFalse hcont =>
      cases att <;> simp at hloop

/-! ### Unfolding lemmas for allocateIP -/

theorem allocateIP_error_preserves_store (s : Store) (nid : Nat)
    (req : Option Ip) (hn : String) (e : IpamError) (s2 : Store)
    (hok : allocateIP s nid req hn = (.error e, s2)) : s2 = s := by
  rw [allocateIP] at hok
  repeat' split at hok
  all_goals simp only [Prod.mk.injEq] at hok
  all_goals first
    | exact hok.2.symm
    | exact absurd hok.1 (by simp)

theorem allocateIP_some_ok_inv (s : Store) (nid : Nat) (rip : Ip) (hn : String)
    (row : IpRow) (s2 : Store)
    (hok : allocateIP s nid (some rip) hn = (.ok row, s2)) :
    ∃ nw, s.networks.find? (fun n => n.id == nid) = some nw ∧
      (rip == nw.gateway) = false ∧
      s.rows.find? (fun r => r.networkId == nid && r.address == rip) = none ∧
      row = ⟨s.nextRowId, nid, rip, some hn, "allocated"⟩ ∧
      s2 = { s with rows := s.rows ++ [row], nextRowId := s.nextRowId + 1 } := by
  rw [allocateIP] at hok
  split at hok
  · simp at hok
  split at hok
  · simp at hok
  next nw hnw =>
    split at hok
    case h_2 => rename_i heq; simp at heq
    case h_1 =>
      rename_i rip2 heq
      injection heq with heq
      subst heq
      split at hok
      · simp at hok
      next hgw =>
        split at hok
        · simp at hok
        next hfind =>
          simp only [Prod.mk.injEq] at hok
          obtain ⟨h1, h2⟩ := hok
          injection h1 with h1
          refine ⟨nw, hnw, ?_, hfind, h1.symm, by rw [← h1]; exact h2.symm⟩
          simpa using hgw

theorem allocateIP_none_ok_loop (s : Store) (nid : Nat) (hn : String)
    (row : IpRow) (s2 : Store) (nw : Network)
    (hnw : s.networks.find? (fun n => n.id == nid) = some nw)
    (hok : allocateIP s nid none hn = (.ok row, s2)) :
    allocLoop s nid nw.gateway hn nw.cidr (2 ^ (32 - nw.cidr.prefixLen) + 1)
      (nextIP nw.cidr.base) false = .inserted row s2 := by
  rw [allocateIP] at hok
  split at hok
  · simp at hok
  split at hok
  · simp at hok
  next nw' hnw' =>
    rw [hnw] at hnw'
    injection hnw' with hnw'
    subst hnw'
    split at hok
    case h_1 => rename_i heq; simp at heq
    case h_2 =>
      split at hok
      next row0 s0 hloop =>
        simp only [Prod.mk.injEq] at hok
        obtain ⟨h1, h2⟩ := hok
        injection h1 with h1
        rw [← h1, ← h2]
        exact hloop
      all_goals simp at hok

/-! ### Concrete stores used in the counterexamples and witnesses -/

/-- The network of the spec scenario: 10.0.0.0/30 with gateway 10.0.0.1. -/
def net30 : Network := ⟨1, ⟨[10, 0, 0, 0], 30⟩, [10, 0, 0, 1]⟩

/-- A store holding only `net30`, with no address records. -/
def store30 : Store := ⟨[net30], [], 1, 2⟩

/-- Same block as `net30` but with gateway 10.0.0.3. -/
def netGw3 : Network := ⟨1, ⟨[10, 0, 0, 0], 30⟩, [10, 0, 0, 3]⟩

/-- A store holding only `netGw3`, with no address records. -/
def storeGw3 : Store := ⟨[netGw3], [], 1, 2⟩

/-- A store where 10.0.0.2 carries a released-looking record that still has a
hostname (reachable via allocate, release, then UpdateIPHostname). -/
def storeAvailNamed : Store :=
  ⟨[net30], [⟨1, 1, [10, 0, 0, 2], some "db", "available"⟩], 2, 2⟩

/-- A store where 10.0.0.2 carries exactly the record ReleaseIP leaves
behind: status available, hostname NULL. -/
def storeAvailNull : Store :=
  ⟨[net30], [⟨1, 1, [10, 0, 0, 2], none, "available"⟩], 2, 2⟩

/-! ### Claim C1 -/

/-- C1 counterexample: on network 10.0.0.0/30 with gateway 10.0.0.1 and an
empty address table, AllocateIP with the explicit requested address
192.168.1.5 succeeds and returns that address, although it lies outside the
network's CIDR block — the explicit branch never checks containment, so the
claim that every successfully returned address lies within the block is
false. -/
theorem allocateIP_outside_cidr_cex :
    (allocateIP store30 1 (some [192, 168, 1, 5]) "web").1 =
      .ok ⟨1, 1, [192, 168, 1, 5], some "web", "allocated"⟩ ∧
    cidrContains net30.cidr [192, 168, 1, 5] = false := by decide

/-- C1 (amended): every successful AllocateIP returns an address different
from the network's gateway, and when first-available selection is used the
returned address additionally lies within the network's CIDR block; the
explicit-address branch performs no containment check, so containment cannot
be asserted for it. -/
theorem allocateIP_ok_not_gateway (s : Store) (nid : Nat) (req : Option Ip)
    (hn : String) (row : IpRow) (s2 : Store) (nw : Network)
    (hnw : s.networks.find? (fun n => n.id == nid) = some nw)
    (hok : allocateIP s nid req hn = (.ok row, s2)) :
    row.address ≠ nw.gateway ∧
    (req = none → cidrContains nw.cidr row.address = true) := by
  cases req with
  | some rip =>
    obtain ⟨nw', hnw', hgw, hfind, hrow, hs2⟩ :=
      allocateIP_some_ok_inv s nid rip hn row s2 hok
    rw [hnw] at hnw'
    injection hnw' with hnw'
    subst hnw'
    refine ⟨?_, fun hc => by simp at hc⟩
    rw [hrow]
    exact beq_eq_false_iff_ne.mp hgw
  | none =>
    have hloop := allocateIP_none_ok_loop s nid hn row s2 nw hnw hok
    obtain ⟨hcont, hgw2, _⟩ :=
      allocLoop_inserted_basic s nid nw.gateway hn nw.cidr _ _ _ _ _ hloop
    exact ⟨hgw2, fun _ => hcont⟩

/-- C1 witness: the amended theorem applied to a concrete first-available
allocation on 10.0.0.0/30. -/
theorem allocateIP_ok_not_gateway_witness :
    (⟨1, 1, [10, 0, 0, 2], some "web", "allocated"⟩ : IpRow).address ≠ net30.gateway ∧
    ((none : Option Ip) = none →
      cidrContains net30.cidr
        (⟨1, 1, [10, 0, 0, 2], some "web", "allocated"⟩ : IpRow).address = true) :=
  allocateIP_ok_not_gateway store30 1 none "web"
    ⟨1, 1, [10, 0, 0, 2], some "web", "allocated"⟩
    ⟨[net30], [⟨1, 1, [10, 0, 0, 2], some "web", "allocated"⟩], 2, 2⟩
    net30 (by decide) (by decide)

/-! ### Claim C8 -/

/-- C8 counterexample: on network 10.0.0.0/30 with gateway 10.0.0.3 and an
empty address table, first-available allocation returns 10.0.0.1, although
10.0.0.0 — the block's base address — lies in the block, is not the gateway
and is unoccupied, and is numerically smaller.  The loop starts at the
successor of the base address, so the base itself is never a candidate and
the returned address is not the numerically smallest eligible address of the
block. -/
theorem firstAvailable_not_least_cex :
    (allocateIP storeGw3 1 none "web").1 =
      .ok ⟨1, 1, [10, 0, 0, 1], some "web", "allocated"⟩ ∧
    cidrContains netGw3.cidr [10, 0, 0, 0] = true ∧
    ([10, 0, 0, 0] : Ip) ≠ netGw3.gateway ∧
    storeGw3.rows = [] ∧
    ipToNat [10, 0, 0, 0] < ipToNat [10, 0, 0, 1] := by decide

/-- C8 (amended): a successful first-available AllocateIP returns the
numerically smallest address that is strictly greater than the network's
base address, lies within the CIDR block, is not the gateway and is not
occupied by any record: every strictly smaller value above the base is
either the gateway or occupied.  (The candidate enumeration starts at the
successor of the base address and increases by one, so the base is never a
candidate.) -/
theorem allocateIP_firstAvailable_least (s : Store) (nid : Nat) (hn : String)
    (row : IpRow) (s2 : Store) (nw : Network)
    (hnw : s.networks.find? (fun n => n.id == nid) = some nw)
    (hp1 : 1 ≤ nw.cidr.prefixLen)
    (hbase : ipValid nw.cidr.base)
    (hok : allocateIP s nid none hn = (.ok row, s2)) :
    ipValid row.address ∧
    cidrContains nw.cidr row.address = true ∧
    ipToNat nw.cidr.base < ipToNat row.address ∧
    row.address ≠ nw.gateway ∧
    (∀ r ∈ s.rows, ¬(r.networkId = nid ∧ r.address = row.address)) ∧
    (∀ m, ipToNat nw.cidr.base < m → m < ipToNat row.address →
      natToIp m = nw.gateway ∨
        ∃ r ∈ s.rows, r.networkId = nid ∧ r.address = natToIp m) := by
  have hloop := allocateIP_none_ok_loop s nid hn row s2 nw hnw hok
  obtain ⟨hcont, hgw, _, _, _, _, hunocc, _⟩ :=
    allocLoop_inserted_basic s nid nw.gateway hn nw.cidr _ _ _ _ _ hloop
  have hbv : ipToNat nw.cidr.base < 2 ^ 32 := ipToNat_lt_two_pow hbase
  have hv0 : ipValid (nextIP nw.cidr.base) := ipValid_nextIP hbase
  have hn0 : ipToNat (nextIP nw.cidr.base) = (ipToNat nw.cidr.base + 1) % 2 ^ 32 :=
    ipToNat_nextIP hbase
  rcases Nat.lt_or_ge (ipToNat nw.cidr.base + 1) (2 ^ 32) with hw | hw
  · have hn1 : ipToNat (nextIP nw.cidr.base) = ipToNat nw.cidr.base + 1 := by
      rw [hn0, Nat.mod_eq_of_lt hw]
    obtain ⟨h1, h2, h3⟩ :=
      allocLoop_inserted_min s nid nw.gateway hn nw.cidr hp1 _
        (nextIP nw.cidr.base) false row s2 hv0 (by omega)
        (by intro m hm1 hm2; rw [hn1] at hm2; exfalso; omega) hloop
    exact ⟨h1, hcont, h2, hgw, hunocc, h3⟩
  · have h32 : ipToNat nw.cidr.base = 2 ^ 32 - 1 := by omega
    have hz : ipToNat (nextIP nw.cidr.base) = 0 := by
      rw [hn0, h32]
      norm_num
    have hbq : ipToNat nw.cidr.base / 2 ^ (32 - nw.cidr.prefixLen) =
        (2 ^ 32 - 1) / 2 ^ (32 - nw.cidr.prefixLen) := by rw [h32]
    exact absurd hloop (allocLoop_ne_inserted s nid nw.gateway hn nw.cidr
      (cidrContains_false_of_wrap nw.cidr (nextIP nw.cidr.base) hp1 hbq hz) _ _ _ _)

/-- C8 witness: the amended theorem applied to the first allocation on
10.0.0.0/30 with gateway 10.0.0.1, which returns 10.0.0.2. -/
theorem allocateIP_firstAvailable_least_witness :
    ipValid (⟨1, 1, [10, 0, 0, 2], some "web", "allocated"⟩ : IpRow).address ∧
    cidrContains net30.cidr
      (⟨1, 1, [10, 0, 0, 2], some "web", "allocated"⟩ : IpRow).address = true ∧
    ipToNat net30.cidr.base <
      ipToNat (⟨1, 1, [10, 0, 0, 2], some "web", "allocated"⟩ : IpRow).address ∧
    (⟨1, 1, [10, 0, 0, 2], some "web", "allocated"⟩ : IpRow).address ≠ net30.gateway ∧
    (∀ r ∈ store30.rows,
      ¬(r.networkId = 1 ∧
        r.address = (⟨1, 1, [10, 0, 0, 2], some "web", "allocated"⟩ : IpRow).address)) ∧
    (∀ m, ipToNat net30.cidr.base < m →
      m < ipToNat (⟨1, 1, [10, 0, 0, 2], some "web", "allocated"⟩ : IpRow).address →
      natToIp m = net30.gateway ∨
        ∃ r ∈ store30.rows, r.networkId = 1 ∧ r.address = natToIp m) :=
  allocateIP_firstAvailable_least store30 1 "web"
    ⟨1, 1, [10, 0, 0, 2], some "web", "allocated"⟩
    ⟨[net30], [⟨1, 1, [10, 0, 0, 2], some "web", "allocated"⟩], 2, 2⟩
    net30 (by decide) (by decide) (by decide) (by decide)

/-! ### Claim C2 -/

/-- C2 counterexample: a record with status available that still carries
hostname "db" (reachable by allocate, release, then UpdateIPHostname on the
released record) makes AllocateIP fail with the hostname conflict, although
no record with status allocated holds that hostname — the uniqueness query
has no status filter, so the claimed "allocated records only" iff is false. -/
theorem hostname_conflict_available_cex :
    (allocateIP storeAvailNamed 1 (some [10, 0, 0, 3]) "db").1 =
      .error (.hostnameInUse "db") ∧
    (storeAvailNamed.rows.any fun r =>
      r.networkId == 1 && r.status == "allocated" && r.hostname == some "db") =
      false := by decide

/-- C2 (amended): AllocateIP fails with the hostname-conflict error exactly
when some record of the network — of any status — holds the requested
hostname, and UpdateIPHostname fails with it exactly when its record exists
and some other record of that record's network — of any status — holds the
new hostname.  A record whose hostname column is NULL never matches. -/
theorem hostname_conflict_iff :
    (∀ (s : Store) (nid : Nat) (req : Option Ip) (hn : String),
      (allocateIP s nid req hn).1 = .error (.hostnameInUse hn) ↔
        ∃ r ∈ s.rows, r.networkId = nid ∧ r.hostname = some hn) ∧
    (∀ (s : Store) (id : Nat) (hn : String),
      updateIPHostname s id hn = .error (.hostnameInUse hn) ↔
        ∃ row0, s.rows.find? (fun r => r.id == id) = some row0 ∧
          ∃ r ∈ s.rows, r.networkId = row0.networkId ∧
            r.hostname = some hn ∧ r.id ≠ id) := by
  constructor
  · intro s nid req hn
    constructor
    · intro herr
      cases hh : s.rows.find? (fun r => r.networkId == nid && r.hostname == some hn) with
      | some r0 =>
        have hp := List.find?_some hh
        have hm := List.mem_of_find?_eq_some hh
        simp only [Bool.and_eq_true, beq_iff_eq] at hp
        exact ⟨r0, hm, hp.1, hp.2⟩
      | none =>
        rw [allocateIP, hh] at herr
        exfalso
        repeat' split at herr
        all_goals simp_all
    · rintro ⟨r, hm, h1, h2⟩
      cases hh : s.rows.find? (fun r => r.networkId == nid && r.hostname == some hn) with
      | none =>
        have := List.find?_eq_none.mp hh r hm
        simp [h1, h2] at this
      | some r0 =>
        rw [allocateIP, hh]
  · intro s id hn
    constructor
    · intro herr
      cases hh : s.rows.find? (fun r => r.id == id) with
      | none =>
        rw [updateIPHostname, hh] at herr
        simp at herr
      | some row0 =>
        cases hc : s.rows.find? (fun r =>
            r.networkId == row0.networkId && r.hostname == some hn && r.id != id) with
        | none =>
          exfalso
          rw [updateIPHostname, hh] at herr
          simp [hc] at herr
        | some r =>
          have hp := List.find?_some hc
          have hm := List.mem_of_find?_eq_some hc
          simp only [Bool.and_eq_true, beq_iff_eq, bne_iff_ne] at hp
          exact ⟨row0, rfl, r, hm, hp.1.1, hp.1.2, hp.2⟩
    · rintro ⟨row0, hh, r, hm, h1, h2, h3⟩
      rw [updateIPHostname, hh]
      cases hc : s.rows.find? (fun r =>
          r.networkId == row0.networkId && r.hostname == some hn && r.id != id) with
      | none =>
        exfalso
        have := List.find?_eq_none.mp hc r hm
        simp [h1, h2, h3] at this
      | some r0 => simp [hc]

/-! ### Claim C3 -/

/-- C3 counterexample: a released record (status available, hostname NULL)
for 10.0.0.2 makes an explicit AllocateIP of 10.0.0.2 fail with the
already-allocated conflict, although no record for that pair has status
allocated — the explicit branch checks for the existence of any row, so a
released record does block re-allocation of its address. -/
theorem requested_available_blocks_cex :
    (allocateIP storeAvailNull 1 (some [10, 0, 0, 2]) "web").1 =
      .error .alreadyAllocated ∧
    (storeAvailNull.rows.any fun r =>
      r.networkId == 1 && r.address == [10, 0, 0, 2] && r.status == "allocated") =
      false := by decide

/-- C3 (amended): with no hostname conflict, an existing network and a
requested address different from the gateway, explicit AllocateIP fails with
the already-allocated conflict exactly when any record — of any status —
exists for the (network, address) pair; when no such record exists it inserts
one new allocated record for exactly the requested address. -/
theorem allocateIP_requested_spec (s : Store) (nid : Nat) (rip : Ip)
    (hn : String) (nw : Network)
    (hhost : ∀ r ∈ s.rows, ¬(r.networkId = nid ∧ r.hostname = some hn))
    (hnw : s.networks.find? (fun n => n.id == nid) = some nw)
    (hgw : rip ≠ nw.gateway) :
    ((∃ r ∈ s.rows, r.networkId = nid ∧ r.address = rip) →
        allocateIP s nid (some rip) hn = (.error .alreadyAllocated, s)) ∧
    ((∀ r ∈ s.rows, ¬(r.networkId = nid ∧ r.address = rip)) →
        allocateIP s nid (some rip) hn =
          (.ok ⟨s.nextRowId, nid, rip, some hn, "allocated"⟩,
           { s with
               rows := s.rows ++ [⟨s.nextRowId, nid, rip, some hn, "allocated"⟩],
               nextRowId := s.nextRowId + 1 })) := by
  have hh : s.rows.find? (fun r => r.networkId == nid && r.hostname == some hn) = none := by
    rw [List.find?_eq_none]
    intro r hr
    have hhr := hhost r hr
    simp only [Bool.and_eq_true, beq_iff_eq]
    exact fun hcon => hhr hcon
  have hgwb : (rip == nw.gateway) = false := beq_eq_false_iff_ne.mpr hgw
  constructor
  · rintro ⟨r, hm, h1, h2⟩
    cases hocc : s.rows.find? (fun r => r.networkId == nid && r.address == rip) with
    | none =>
      exfalso
      have := List.find?_eq_none.mp hocc r hm
      simp [h1, h2] at this
    | some r0 =>
      rw [allocateIP, hh, hnw]
      simp [hgwb, hocc]
  · intro hnone
    have hocc : s.rows.find? (fun r => r.networkId == nid && r.address == rip) = none := by
      rw [List.find?_eq_none]
      intro r hr
      have hhr := hnone r hr
      simp only [Bool.and_eq_true, beq_iff_eq]
      exact fun hcon => hhr hcon
    rw [allocateIP, hh, hnw]
    simp [hgwb, hocc]

/-- C3 witness: the amended theorem applied on 10.0.0.0/30 with the released
record at 10.0.0.2, requesting 10.0.0.2; the conflict branch fires. -/
theorem allocateIP_requested_spec_witness :
    ((∃ r ∈ storeAvailNull.rows, r.networkId = 1 ∧ r.address = [10, 0, 0, 2]) →
        allocateIP storeAvailNull 1 (some [10, 0, 0, 2]) "web" =
          (.error .alreadyAllocated, storeAvailNull)) ∧
    ((∀ r ∈ storeAvailNull.rows, ¬(r.networkId = 1 ∧ r.address = [10, 0, 0, 2])) →
        allocateIP storeAvailNull 1 (some [10, 0, 0, 2]) "web" =
          (.ok ⟨storeAvailNull.nextRowId, 1, [10, 0, 0, 2], some "web", "allocated"⟩,
           { storeAvailNull with
               rows := storeAvailNull.rows ++
                 [⟨storeAvailNull.nextRowId, 1, [10, 0, 0, 2], some "web", "allocated"⟩],
               nextRowId := storeAvailNull.nextRowId + 1 })) :=
  allocateIP_requested_spec storeAvailNull 1 [10, 0, 0, 2] "web" net30
    (by decide) (by decide) (by decide)

/-! ### Claim C4 -/

/-- C4 counterexample: CreateNetwork with gateway 192.168.1.1, which lies
outside the block 10.0.0.0/30, succeeds anyway: it inserts the network row
and returns the store-assigned id, while the claim says it must fail with a
ValidationError and write no row. -/
theorem createNetwork_no_validation_cex :
    cidrContains ⟨[10, 0, 0, 0], 30⟩ [192, 168, 1, 1] = false ∧
    createNetwork ⟨[], [], 1, 1⟩ ⟨[10, 0, 0, 0], 30⟩ [192, 168, 1, 1] =
      (1, ⟨[⟨1, ⟨[10, 0, 0, 0], 30⟩, [192, 168, 1, 1]⟩], [], 1, 2⟩) := by decide

/-- C4 (amended): CreateNetwork performs no gateway-in-cidr validation at
all: for every store and every cidr/gateway pair — whether or not the
gateway lies within the block — it inserts exactly one new network row with
the given fields and returns the store-assigned id. -/
theorem createNetwork_always_inserts (s : Store) (c : Cidr) (g : Ip) :
    (createNetwork s c g).2.networks =
      s.networks ++ [⟨(createNetwork s c g).1, c, g⟩] ∧
    (createNetwork s c g).2.rows = s.rows ∧
    (createNetwork s c g).1 = s.nextNetworkId :=
  ⟨rfl, rfl, rfl⟩

/-! ### Claim C5 -/

/-- C5 witness: the no-partial-writes theorem applied to a failing call, a
gateway-address request on 10.0.0.0/30. -/
theorem allocateIP_error_preserves_store_witness : store30 = store30 :=
  allocateIP_error_preserves_store store30 1 (some [10, 0, 0, 1]) "web"
    .cannotAllocateGateway store30 (by decide)

/-! ### Claim C6 -/

/-- C6: on network 10.0.0.0/30 with gateway 10.0.0.1 and no address records,
the first first-available allocation returns 10.0.0.2, the second returns
10.0.0.3, and the third fails with the exhausted-pool error. -/
theorem scenario_slash30_allocations :
    (allocateIP store30 1 none "h1").1 =
      .ok ⟨1, 1, [10, 0, 0, 2], some "h1", "allocated"⟩ ∧
    (allocateIP (allocateIP store30 1 none "h1").2 1 none "h2").1 =
      .ok ⟨2, 1, [10, 0, 0, 3], some "h2", "allocated"⟩ ∧
    (allocateIP (allocateIP (allocateIP store30 1 none "h1").2 1 none "h2").2
        1 none "h3").1 = .error .noAvailableAddresses := by decide

/-! ### Claim C7 -/

/-- C7: allocating 10.0.0.2 explicitly, releasing the returned record (id 1)
and then fetching it by id does not return the available record the claim
describes: the stored row does have status available and a cleared (NULL)
hostname, but GetIP fails, because it scans the NULL hostname column into a
Go string. -/
theorem allocate_release_get_roundtrip_fails :
    allocateIP store30 1 (some [10, 0, 0, 2]) "web" =
      (.ok ⟨1, 1, [10, 0, 0, 2], some "web", "allocated"⟩,
       ⟨[net30], [⟨1, 1, [10, 0, 0, 2], some "web", "allocated"⟩], 2, 2⟩) ∧
    releaseIP ⟨[net30], [⟨1, 1, [10, 0, 0, 2], some "web", "allocated"⟩], 2, 2⟩ 1 =
      .ok ⟨[net30], [⟨1, 1, [10, 0, 0, 2], none, "available"⟩], 2, 2⟩ ∧
    getIP ⟨[net30], [⟨1, 1, [10, 0, 0, 2], none, "available"⟩], 2, 2⟩ 1 =
      .error .nullHostnameScan := by decide

/-! ### Claim C9 -/

/-- C9: nextIP returns the numeric successor of its argument: for every
well-formed IPv4 value, the result is again four bytes whose big-endian
value is the argument's value plus one, modulo 2^32 (the per-octet
increment carries into the next octet on overflow).  As a Lean function the
embedding is pure by construction, matching the Go function, which copies
its argument before incrementing. -/
theorem nextIP_numeric_successor (ip : Ip) (h : ipValid ip) :
    ipValid (nextIP ip) ∧ ipToNat (nextIP ip) = (ipToNat ip + 1) % 2 ^ 32 :=
  ⟨ipValid_nextIP h, ipToNat_nextIP h⟩

/-- C9 witness: the successor theorem applied at 10.0.0.255, where the last
octet wraps and carries. -/
theorem nextIP_numeric_successor_witness :
    ipValid (nextIP [10, 0, 0, 255]) ∧
    ipToNat (nextIP [10, 0, 0, 255]) = (ipToNat [10, 0, 0, 255] + 1) % 2 ^ 32 :=
  nextIP_numeric_successor [10, 0, 0, 255] (by decide)

/-! ### Claim C10 -/

theorem find?_release (l : List IpRow) (id : Nat) :
    (l.map (fun r => if r.id == id
        then { r with status := "available", hostname := none } else r)).find?
      (fun r => r.id == id) =
    (l.find? (fun r => r.id == id)).map
      (fun r => { r with status := "available", hostname := none }) := by
  rw [List.find?_map]
  have hp : ((fun r => r.id == id) ∘ fun r => if r.id == id
      then { r with status := "available", hostname := none } else r) =
      (fun r : IpRow => r.id == id) := by
    funext r
    by_cases hr : (r.id == id) = true
    · simp [Function.comp, hr]
    · simp only [Bool.not_eq_true] at hr
      simp [Function.comp, hr]
  rw [hp]
  cases hfr : l.find? (fun r => r.id == id) with
  | none => rfl
  | some r =>
    have ht := List.find?_some hfr
    simp [ht, eq_of_beq ht]

/-- C10: GetIP returns a record only when the stored hostname is non-NULL.
An existing record whose hostname column is NULL — exactly the state
ReleaseIP leaves a released record in — makes GetIP fail with the NULL-scan
error instead of returning the record, so a released record cannot be
fetched by id. -/
theorem getIP_requires_hostname :
    (∀ (s : Store) (id : Nat) (r : IpRow),
      s.rows.find? (fun x => x.id == id) = some r → r.hostname = none →
        getIP s id = .error .nullHostnameScan) ∧
    (∀ (s : Store) (id : Nat) (rec : IpRow),
      getIP s id = .ok (some rec) → rec.hostname ≠ none) ∧
    (∀ (s : Store) (id : Nat) (s2 : Store),
      releaseIP s id = .ok s2 → getIP s2 id = .error .nullHostnameScan) := by
  refine ⟨?_, ?_, ?_⟩
  · intro s id r hfind hnull
    rw [getIP, hfind]
    simp [hnull]
  · intro s id rec hok
    cases hh : s.rows.find? (fun x => x.id == id) with
    | none => rw [getIP, hh] at hok; simp at hok
    | some r =>
      cases hr : r.hostname with
      | none =>
        rw [getIP, hh] at hok
        simp [hr] at hok
      | some h0 =>
        rw [getIP, hh] at hok
        simp [hr] at hok
        subst hok
        simp [hr]
  · intro s id s2 hrel
    rw [releaseIP] at hrel
    split at hrel
    case isFalse => simp at hrel
    case isTrue hany =>
      injection hrel with hrel
      subst hrel
      have hex : ∃ r ∈ s.rows, (r.id == id) = true := List.any_eq_true.mp hany
      have hsome : (s.rows.find? (fun r => r.id == id)).isSome :=
        List.find?_isSome.mpr hex
      obtain ⟨r, hr⟩ := Option.isSome_iff_exists.mp hsome
      rw [getIP, find?_release, hr]
      rfl

/-- C10 witness: GetIP on the released record of `storeAvailNull` fails with
the NULL-scan error. -/
theorem getIP_requires_hostname_witness :
    getIP storeAvailNull 1 = .error .nullHostnameScan :=
  getIP_requires_hostname.1 storeAvailNull 1
    ⟨1, 1, [10, 0, 0, 2], none, "available"⟩ (by decide) (by decide)
